import Mathlib

/-!
Verification of the omakase package manager core against its specification.

The Rust sources are embedded shallowly: pure functions become Lean
functions, fallible or panicking code returns Option or Except, and the
external collaborators (SAT solver backend, signature verification,
terminal, subprocesses, HTTP) are abstracted as inputs.  Machine integers
are modelled as Nat; overflow checks are explicit where the source can
overflow.
-/

namespace Omakase

/-! ## Versions and version requirements

The files solver/version.rs and solver/types.rs are not part of the
sources under review; only their interface is visible (field names appear
in the pool test, and the spec section 3 describes the semantics). -/

/-- Modelled from the spec: PackageVersion (solver/version.rs, not in the
sources).  Spec section 3 requires only that versions form a total order
and that the pool and encoder use nothing beyond comparison, so versions
are modelled as natural numbers with their order. -/
abbrev PackageVersion := Nat

/-- VersionRequirement: field names from the pool unit test in
solver/pool.rs (lower_bond / upper_bond); each bound carries the bound
version and an inclusivity flag, per spec section 3. -/
structure VersionRequirement where
  lower_bond : Option (PackageVersion × Bool)
  upper_bond : Option (PackageVersion × Bool)
  deriving DecidableEq, Repr

/-- Modelled from the spec: within(v) holds when lower <= v <= upper with
the inclusivity flags; a missing bound is unbounded (solver/types.rs is
not in the sources). -/
def VersionRequirement.within (r : VersionRequirement) (v : PackageVersion) : Bool :=
  (match r.lower_bond with
   | none => true
   | some (l, inc) => if inc then decide (l ≤ v) else decide (l < v)) &&
  (match r.upper_bond with
   | none => true
   | some (u, inc) => if inc then decide (v ≤ u) else decide (v < u))

/-- The requirement with no bounds (accepts every version). -/
def VersionRequirement.any : VersionRequirement := { lower_bond := none, upper_bond := none }

/-- PackageMeta as used by solver/pool.rs (fields exercised by the pool:
name, version, depends, breaks; construction shown in the pool unit
test). -/
structure PackageMeta where
  name : String
  version : PackageVersion
  depends : List (String × VersionRequirement)
  breaks : List (String × VersionRequirement)
  deriving DecidableEq, Repr

/-! ## Literals, clauses and formulas

varisat literals are modelled by a variable id (the DIMACS integer) and a
polarity; a CnfFormula is the list of its clauses in emission order. -/

/-- A literal: (variable id, polarity).  Lit::from_dimacs n is (n, true);
the bang operator flips the polarity. -/
abbrev Lit := Nat × Bool

/-- Literal negation (the Rust bang operator on varisat literals). -/
def Lit.neg (l : Lit) : Lit := (l.1, !l.2)

/-- A literal is satisfied when the assignment agrees with its polarity. -/
def litSat (asn : Nat → Bool) (l : Lit) : Bool := asn l.1 == l.2

/-- A clause is satisfied when some literal in it is satisfied. -/
def clauseSat (asn : Nat → Bool) (c : List Lit) : Bool := c.any (litSat asn)

/-- A formula is satisfied when every clause is satisfied. -/
def formulaSat (asn : Nat → Bool) (f : List (List Lit)) : Bool := f.all (clauseSat asn)

/-! ## The package pool (solver/pool.rs) -/

/-- Association-list lookup standing in for HashMap::get. -/
def lookupAssoc {α : Type} (m : List (String × α)) (k : String) : Option α :=
  match m with
  | [] => none
  | (k₀, v) :: rest => if k₀ = k then some v else lookupAssoc rest k

/-- Association-list store standing in for HashMap::insert / get_mut
update: replaces the binding of k when present, otherwise appends it. -/
def storeAssoc {α : Type} (m : List (String × α)) (k : String) (v : α) :
    List (String × α) :=
  match m with
  | [] => [(k, v)]
  | (k₀, v₀) :: rest =>
      if k₀ = k then (k₀, v) :: rest else (k₀, v₀) :: storeAssoc rest k v

/-- PackagePool: the append-only package vector and the name index.  ids
stored in name_to_ids are 1-based (they double as DIMACS variable ids);
pkgs is 0-based, exactly as the Rust Vec. -/
structure PackagePool where
  pkgs : List (String × PackageMeta)
  name_to_ids : List (String × List Nat)
  deriving DecidableEq, Repr

/-- PackagePool::new. -/
def PackagePool.new : PackagePool := { pkgs := [], name_to_ids := [] }

/-- PackagePool::add, embedded statement by statement.  The source pushes
the package, takes index = pkgs.len() (1-based id), and when the name is
already indexed compares this_version against self.pkgs[ids[0]].1.version:
note that ids[0] is a 1-based id used directly as a 0-based Vec index, so
the comparison reads the entry one past the head (always in range, since
every stored id is at most the pre-push length). -/
def PackagePool.add (pool : PackagePool) (meta : PackageMeta) : PackagePool × Nat :=
  let name := meta.name
  let pkgs := pool.pkgs ++ [(name, meta)]
  let index := pkgs.length
  match lookupAssoc pool.name_to_ids name with
  | some ids =>
      let newIds :=
        match ids with
        | [] => ids ++ [index]
        | headId :: _ =>
            match pkgs.get? headId with
            | some p => if p.2.version < meta.version then index :: ids else ids ++ [index]
            | none => ids ++ [index]
      ({ pkgs := pkgs, name_to_ids := storeAssoc pool.name_to_ids name newIds }, index)
  | none =>
      ({ pkgs := pkgs, name_to_ids := storeAssoc pool.name_to_ids name [index] }, index)

/-- Fold a list of package metas into a pool starting from
PackagePool::new (a sequence of add calls, results discarded). -/
def poolOfList (l : List PackageMeta) : PackagePool :=
  l.foldl (fun pool m => (pool.add m).1) PackagePool.new

/-- PackagePool::id_to_pkg: bails when id exceeds the pool size, then
reads pkgs[id - 1].  An id of 0 underflows the usize subtraction in the
source (a panic), modelled as none. -/
def PackagePool.id_to_pkg (pool : PackagePool) (id : Nat) : Option (String × PackageVersion) :=
  if pool.pkgs.length < id then none
  else if id = 0 then none
  else (pool.pkgs.get? (id - 1)).map (fun p => (p.1, p.2.version))

/-- The dependency-clause candidate literals: for each id in the index
list of the dependency name, the source reads self.pkgs[*dep_pkgid] (the
1-based id used as a 0-based index; out of range is a panic, modelled as
none) and keeps the positive literal when the requirement accepts that
version of that entry. -/
def depCandidates (pool : PackagePool) (req : VersionRequirement) :
    List Nat → Option (List Lit)
  | [] => some []
  | q :: rest => do
      let p ← pool.pkgs.get? q
      let tail ← depCandidates pool req rest
      if req.within p.2.version then return (q, true) :: tail else return tail

/-- The breaks-clause literals: same traversal as depCandidates but the
kept literals are negated. -/
def breakLits (pool : PackagePool) (req : VersionRequirement) :
    List Nat → Option (List Lit)
  | [] => some []
  | q :: rest => do
      let p ← pool.pkgs.get? q
      let tail ← breakLits pool req rest
      if req.within p.2.version then return (q, false) :: tail else return tail

/-- The clause emitted for one dependency entry of a package with id
pkgid: the negated package literal followed by the candidate literals.
The HashMap index self.name_to_ids[&dep.0] panics when the name is
absent, modelled as none. -/
def depClause (pool : PackagePool) (pkgid : Nat) (dep : String × VersionRequirement) :
    Option (List Lit) := do
  let available ← lookupAssoc pool.name_to_ids dep.1
  let lits ← depCandidates pool dep.2 available
  return (pkgid, false) :: lits

/-- The clause emitted for one breaks entry of a package with id pkgid. -/
def breakClause (pool : PackagePool) (pkgid : Nat) (bk : String × VersionRequirement) :
    Option (List Lit) := do
  let breakable ← lookupAssoc pool.name_to_ids bk.1
  let lits ← breakLits pool bk.2 breakable
  return (pkgid, false) :: lits

/-- PackagePool::pkg_to_rule: all dependency clauses in order, then all
breaks clauses in order. -/
def PackagePool.pkg_to_rule (pool : PackagePool) (pkg : PackageMeta) (pkgid : Nat) :
    Option (List (List Lit)) := do
  let deps ← pkg.depends.mapM (depClause pool pkgid)
  let bks ← pkg.breaks.mapM (breakClause pool pkgid)
  return deps ++ bks

/-- The enumerate loop of to_solver: package at position pos (0-based)
contributes pkg_to_rule with pkgid = pos + 1. -/
def toSolverAux (pool : PackagePool) : List (String × PackageMeta) → Nat →
    Option (List (List Lit))
  | [], _ => some []
  | p :: rest, pos => do
      let f ← pool.pkg_to_rule p.2 (pos + 1)
      let frest ← toSolverAux pool rest (pos + 1)
      return f ++ frest

/-- PackagePool::to_solver: the conjunction of every per-package formula,
as the list of all emitted clauses. -/
def PackagePool.to_solver (pool : PackagePool) : Option (List (List Lit)) :=
  toSolverAux pool pool.pkgs 0

/-- The head-is-maximal invariant claimed for the name index: the first
id of the list of a name denotes an entry (via id_to_pkg) whose version is at
least the version of every entry the list denotes. -/
def headIsMax (pool : PackagePool) (n : String) : Bool :=
  match lookupAssoc pool.name_to_ids n with
  | none => true
  | some [] => true
  | some (h :: t) =>
      match pool.id_to_pkg h with
      | none => false
      | some (_, vh) => (h :: t).all (fun id =>
          match pool.id_to_pkg id with
          | none => false
          | some (_, v) => decide (v ≤ vh))

/-! ## Concrete pools used to settle the solver claims -/

/-- Package a at version 1, no relationships. -/
def metaA1 : PackageMeta := { name := "a", version := 1, depends := [], breaks := [] }

/-- Package a at version 2, no relationships. -/
def metaA2 : PackageMeta := { name := "a", version := 2, depends := [], breaks := [] }

/-- Pool holding two versions of package a (ids 1 and 2). -/
def poolTwoVersions : PackagePool := poolOfList [metaA1, metaA2]

/-- Package b at version 1, no relationships. -/
def metaB1 : PackageMeta := { name := "b", version := 1, depends := [], breaks := [] }

/-- Package b at version 2, no relationships. -/
def metaB2 : PackageMeta := { name := "b", version := 2, depends := [], breaks := [] }

/-- Package a that breaks every version of b. -/
def metaAbreaks : PackageMeta :=
  { name := "a", version := 1, depends := [], breaks := [("b", VersionRequirement.any)] }

/-- Pool with b=1 (id 1), b=2 (id 2) and a breaking b (id 3). -/
def poolBreaks : PackagePool := poolOfList [metaB1, metaB2, metaAbreaks]

/-- Package a depending on the name zzz, which no pool entry bears. -/
def metaMissingDep : PackageMeta :=
  { name := "a", version := 1, depends := [("zzz", VersionRequirement.any)], breaks := [] }

/-- Pool whose only entry depends on an absent name. -/
def poolMissingDep : PackagePool := poolOfList [metaMissingDep]

/-- Package b depending on a with no version bound. -/
def metaBdep : PackageMeta :=
  { name := "b", version := 1, depends := [("a", VersionRequirement.any)], breaks := [] }

/-- Pool with a (id 1) and b depending on a (id 2), the trivial_pool
unit-test pool of solver/pool.rs. -/
def poolDep : PackagePool := poolOfList [metaA1, metaBdep]

/-- The all-true assignment. -/
def allTrue : Nat → Bool := fun _ => true

/-- Assignment selecting ids 3 and 1 and deselecting everything else. -/
def asnBreaks : Nat → Bool := fun n => n == 3 || n == 1

/-! ## Checksums (types/checksum.rs is not in the sources) -/

/-- Modelled from the spec: a checksum is a tagged SHA-256 or SHA-512
digest (types/checksum.rs is not in the sources); the digest is kept as
its hex string. -/
inductive Checksum where
  | sha256 (hex : String)
  | sha512 (hex : String)
  deriving DecidableEq, Repr

/-- A hexadecimal digit (either case). -/
def isHexDigit (c : Char) : Bool := c.isDigit || ("abcdefABCDEF".toList.contains c)

/-- Modelled from the spec: Checksum::from_sha256_str validates length
and hex alphabet (spec 4.B) and tags the digest. -/
def from_sha256_str (s : String) : Except String Checksum :=
  if s.length = 64 && s.toList.all isHexDigit then Except.ok (Checksum.sha256 s)
  else Except.error "Invalid SHA-256 checksum"

/-- Modelled from the spec: Checksum::from_sha512_str, as from_sha256_str
with the SHA-512 digest length. -/
def from_sha512_str (s : String) : Except String Checksum :=
  if s.length = 128 && s.toList.all isHexDigit then Except.ok (Checksum.sha512 s)
  else Except.error "Invalid SHA-512 checksum"

/-! ## parse_inrelease (db/mod.rs) -/

/-- Split a character list at line feeds (the separator itself is
dropped; an empty input gives one empty segment). -/
def splitNL : List Char → List (List Char)
  | [] => [[]]
  | c :: cs =>
      if c = '\n' then [] :: splitNL cs
      else
        match splitNL cs with
        | [] => [[c]]
        | l :: ls => (c :: l) :: ls

/-- Strip one trailing carriage return from a line. -/
def stripCR (l : List Char) : List Char :=
  match l.getLast? with
  | some c => if c = '\r' then l.dropLast else l
  | none => l

/-- Rust str::lines: split on a line feed, drop one trailing empty
segment, strip one trailing carriage return per line. -/
def rustLines (s : String) : List String :=
  let parts := splitNL s.toList
  let parts :=
    match parts.getLast? with
    | some [] => parts.dropLast
    | _ => parts
  parts.map (fun l => String.mk (stripCR l))

/-- A character matched by the chksum group of the CHKSUM regex:
the class [0-9a-z]. -/
def isChkChar (c : Char) : Bool := c.isDigit || c.isLower

/-- The CHKSUM regex of parse_inrelease, capture groups (chksum, size,
path).  The pattern is anchored maximal runs: a nonempty [0-9a-z] run,
then spaces, then a nonempty digit run, then at least one space, then a
nonempty remainder; when the remainder after the maximal space run is
empty the greedy space run backtracks one space into the path group. -/
def chksumCapture (line : String) : Option (String × String × String) :=
  let cs := line.toList
  let chk := cs.takeWhile isChkChar
  let r1 := cs.dropWhile isChkChar
  let sp1 := r1.takeWhile (fun c => c == ' ')
  let r2 := r1.dropWhile (fun c => c == ' ')
  let sz := r2.takeWhile Char.isDigit
  let r3 := r2.dropWhile Char.isDigit
  let sp2 := r3.takeWhile (fun c => c == ' ')
  let r4 := r3.dropWhile (fun c => c == ' ')
  if chk.isEmpty || sp1.isEmpty || sz.isEmpty || sp2.isEmpty then none
  else if !r4.isEmpty then some (String.mk chk, String.mk sz, String.mk r4)
  else if 2 ≤ sp2.length then some (String.mk chk, String.mk sz, " ")
  else none

/-- Rust str::parse::<u64> on the digit-only size capture: its numeric
value, or an error past the u64 range. -/
def parseU64 (s : String) : Except String Nat :=
  let n := s.toList.foldl (fun acc c => acc * 10 + (c.toNat - 48)) 0
  if n < 2 ^ 64 then Except.ok n else Except.error "number too large to fit in target type"

/-- The per-line loop of parse_inrelease: skip empty lines, apply the
CHKSUM regex (a failed match is the Malformed InRelease error), parse the
size, build the checksum with the constructor chosen by the field name,
and insert into the accumulated map (later duplicates overwrite). -/
def parseChecksumLines (mk : String → Except String Checksum) :
    List String → List (String × (Nat × Checksum)) →
    Except String (List (String × (Nat × Checksum)))
  | [], dbs => Except.ok dbs
  | line :: rest, dbs =>
      if line = "" then parseChecksumLines mk rest dbs
      else
        match chksumCapture line with
        | none => Except.error "Malformed InRelease, repository issue?"
        | some (chk, szStr, path) =>
            match parseU64 szStr with
            | Except.error e => Except.error e
            | Except.ok size =>
                match mk chk with
                | Except.error e => Except.error e
                | Except.ok c =>
                    parseChecksumLines mk rest (storeAssoc dbs path (size, c))

/-- The inner field loop of parse_inrelease: the first field named SHA256
or SHA512 is processed and its result returned; none when the paragraph
holds no such field. -/
def parseParaFields : List (String × String) →
    Option (Except String (List (String × (Nat × Checksum))))
  | [] => none
  | (n, v) :: fs =>
      if n = "SHA256" || n = "SHA512" then
        some (parseChecksumLines
          (if n = "SHA256" then from_sha256_str else from_sha512_str) (rustLines v) [])
      else parseParaFields fs

/-- parse_inrelease over the debcontrol paragraphs (each a list of
(name, value) fields in document order): the function returns inside the
first hash field it reaches; exhausting the paragraphs is the
No-metadata-hash error. -/
def parse_inrelease : List (List (String × String)) →
    Except String (List (String × (Nat × Checksum)))
  | [] => Except.error "No metadata hash found in InRelease. Supported Hash: SHA256"
  | p :: ps =>
      match parseParaFields p with
      | some res => res
      | none => parse_inrelease ps

/-- The first field named SHA256 or SHA512 across all paragraphs in
document order, written independently of parse_inrelease (the amended
reading of the spec sentence on field preference). -/
def firstHashField (paragraphs : List (List (String × String))) :
    Option (String × String) :=
  paragraphs.flatten.find? (fun f => f.1 == "SHA256" || f.1 == "SHA512")

/-- A 64-character hex digest used in the SHA256 field of the test
document. -/
def hexA : String := String.mk (List.replicate 64 'a')

/-- A 128-character hex digest used in the SHA512 field of the test
document. -/
def hexB : String := String.mk (List.replicate 128 'b')

/-- An InRelease document carrying both checksum fields for the same
path, SHA256 first, as debcontrol paragraphs. -/
def doubleHashDoc : List (List (String × String)) :=
  [[("SHA256", hexA ++ " 10 p"), ("SHA512", hexB ++ " 10 p")]]

/-! ## Repository configuration (types/config/mod.rs) -/

/-- Mirror: a single URL or a list of mirror URLs. -/
inductive Mirror where
  | Single (m : String)
  | Multiple (ms : List String)
  deriving DecidableEq, Repr

/-- RepoConfig, as in types/config/mod.rs. -/
structure RepoConfig where
  url : Mirror
  distribution : String
  components : List String
  keys : List String
  deriving DecidableEq, Repr

/-- RepoConfig::check_sanity: a multi-mirror URL with an empty mirror
list is rejected; everything else passes. -/
def RepoConfig.check_sanity (repo : RepoConfig) (name : String) : Except String Unit :=
  match repo.url with
  | Mirror.Multiple mirrors =>
      if mirrors.isEmpty then
        Except.error ("Repository " ++ name ++ " requires at least one URL.")
      else Except.ok ()
  | _ => Except.ok ()

/-- RepoConfig::get_url: the single URL, or the first mirror of the
list; indexing m[0] on an empty list is a panic, modelled as none. -/
def RepoConfig.get_url (repo : RepoConfig) : Option String :=
  match repo.url with
  | Mirror.Single m => some m
  | Mirror.Multiple ms => ms.get? 0

/-- A two-mirror repository used as the concrete sanity-check input. -/
def twoMirrorRepo : RepoConfig :=
  { url := Mirror.Multiple ["https://m1.example", "https://m2.example"],
    distribution := "stable", components := ["main"], keys := [] }

/-! ## LocalDb::update (db/mod.rs)

The external collaborators of update are abstracted: the outcome of
verify_inrelease (db/verify.rs plus the signature library, both outside
the sources) is a per-repository Boolean, and the verified payload handed
to parse_inrelease is a per-repository paragraph list.  The value
computed here is the download-job list handed to the downloader in step
4; step 1 (InRelease fetch) and the actual transfers are I/O. -/

/-- Compression as used by the downloader jobs of db/mod.rs. -/
inductive Compression where
  | None (c : Option Checksum)
  | Xz (cs : Option Checksum × Option Checksum)
  | Gz (c : Option Checksum)
  deriving DecidableEq, Repr

/-- A download job of db/mod.rs step 3 (the description field is
presentation-only and omitted). -/
structure DownloadJob where
  url : String
  filename : Option String
  size : Option Nat
  compression : Compression
  deriving DecidableEq, Repr

/-- Step 2 of update: per repository, the verification failure or the
parse failure is propagated immediately by the question-mark operator,
aborting the whole refresh; on success the parsed map is recorded under
the repository name. -/
def updateStep2 (verifyOk : String → Bool)
    (payloads : String → List (List (String × String))) :
    List (String × RepoConfig) →
    Except String (List (String × List (String × (Nat × Checksum))))
  | [] => Except.ok []
  | (name, _repo) :: rest =>
      if verifyOk name then
        match parse_inrelease (payloads name) with
        | Except.error _ =>
            Except.error ("Failed to parse metadata for repository " ++ name ++ ".")
        | Except.ok repo_dbs =>
            match updateStep2 verifyOk payloads rest with
            | Except.error e => Except.error e
            | Except.ok dbs => Except.ok ((name, repo_dbs) :: dbs)
      else Except.error ("Failed to verify metadata for repository " ++ name ++ ".")

/-- The jobs of one (component, arch) pair in step 3: the Packages.xz
job (with the decompressed checksum, bailing when only the compressed
entry exists), the Contents job and the BinContents job, each present
exactly when the verified index lists the artifact. -/
def archJobs (url distribution name component arch : String)
    (db : List (String × (Nat × Checksum))) : Except String (List DownloadJob) :=
  let compressedRel := component ++ "/binary-" ++ arch ++ "/Packages.xz"
  let decompressedRel := component ++ "/binary-" ++ arch ++ "/Packages"
  let pkgsJobs : Except String (List DownloadJob) :=
    match lookupAssoc db compressedRel with
    | some cm =>
        match lookupAssoc db decompressedRel with
        | some dm =>
            Except.ok [{ url := url ++ "/dists/" ++ distribution ++ "/" ++ compressedRel,
                         filename := some (name ++ "/Packages_" ++ distribution ++ "_" ++
                           component ++ "_" ++ arch),
                         size := some cm.1,
                         compression := Compression.Xz (some cm.2, some dm.2) }]
        | none =>
            Except.error "Packages.xz exists but Packages does not, remote repository issue?"
    | none => Except.ok []
  match pkgsJobs with
  | Except.error e => Except.error e
  | Except.ok pkgs =>
      let contentsRel := component ++ "/Contents-" ++ arch ++ ".gz"
      let contentsJobs :=
        match lookupAssoc db contentsRel with
        | some cm =>
            [{ url := url ++ "/dists/" ++ distribution ++ "/" ++ contentsRel,
               filename := some (name ++ "/Contents_" ++ distribution ++ "_" ++
                 component ++ "_" ++ arch ++ ".gz"),
               size := some cm.1,
               compression := Compression.None (some cm.2) }]
        | none => []
      let binRel := component ++ "/BinContents-" ++ arch
      let binJobs :=
        match lookupAssoc db binRel with
        | some m =>
            [{ url := url ++ "/dists/" ++ distribution ++ "/" ++ binRel,
               filename := some (name ++ "/BinContents_" ++ distribution ++ "_" ++
                 component ++ "_" ++ arch),
               size := some m.1,
               compression := Compression.None (some m.2) }]
        | none => []
      Except.ok (pkgs ++ contentsJobs ++ binJobs)

/-- The component loop of step 3, over possible_archs = [target arch,
all]. -/
def compsJobs (url distribution name selfArch : String)
    (db : List (String × (Nat × Checksum))) :
    List String → Except String (List DownloadJob)
  | [] => Except.ok []
  | component :: cs =>
      match archJobs url distribution name component selfArch db with
      | Except.error e => Except.error e
      | Except.ok a =>
          match archJobs url distribution name component "all" db with
          | Except.error e => Except.error e
          | Except.ok b =>
              match compsJobs url distribution name selfArch db cs with
              | Except.error e => Except.error e
              | Except.ok rest => Except.ok (a ++ b ++ rest)

/-- The repository loop of step 3; dbs.get(name).unwrap() panics when
step 2 recorded nothing under the name, and get_url propagates its
failure through the question mark. -/
def step3Jobs (selfArch : String)
    (dbs : List (String × List (String × (Nat × Checksum)))) :
    List (String × RepoConfig) → Except String (List DownloadJob)
  | [] => Except.ok []
  | (name, repo) :: rest =>
      match lookupAssoc dbs name with
      | none => Except.error "internal: repository dbs missing"
      | some db =>
          match repo.get_url with
          | none => Except.error "no mirror configured"
          | some url =>
              match compsJobs url repo.distribution name selfArch db repo.components with
              | Except.error e => Except.error e
              | Except.ok jobs =>
                  match step3Jobs selfArch dbs rest with
                  | Except.error e => Except.error e
                  | Except.ok js => Except.ok (jobs ++ js)

/-- LocalDb::update: verify and parse every InRelease (step 2), then
build the download-job set (step 3) handed to the downloader (step 4). -/
def LocalDb.update (selfArch : String) (repos : List (String × RepoConfig))
    (verifyOk : String → Bool)
    (payloads : String → List (List (String × String))) :
    Except String (List DownloadJob) :=
  match updateStep2 verifyOk payloads repos with
  | Except.error e => Except.error e
  | Except.ok dbs => step3Jobs selfArch dbs repos

/-- Concrete repository config for the refresh-isolation scenario. -/
def repoCfg1 : RepoConfig :=
  { url := Mirror.Single "https://r1.example", distribution := "stable",
    components := ["main"], keys := ["k1.asc"] }

/-- Second concrete repository config (the one whose signature fails). -/
def repoCfg2 : RepoConfig :=
  { url := Mirror.Single "https://r2.example", distribution := "stable",
    components := ["main"], keys := ["k2.asc"] }

/-- Verification outcomes of the scenario: repo1 verifies, repo2 does
not. -/
def verifyScenario : String → Bool := fun name => name == "repo1"

/-- Verified payloads of the scenario: repo1 lists Packages.xz and
Packages for main/amd64; repo2 is never reached. -/
def payloadScenario : String → List (List (String × String)) := fun name =>
  if name == "repo1" then
    [[("SHA256", hexA ++ " 7 main/binary-amd64/Packages.xz\n" ++
                 hexA ++ " 9 main/binary-amd64/Packages")]]
  else []

/-- The single download job update builds for repo1 in the scenario
(Packages.xz of main/amd64, with compressed and decompressed checksums
from the verified index). -/
def repo1PackagesJob : DownloadJob :=
  { url := "https://r1.example/dists/stable/main/binary-amd64/Packages.xz",
    filename := some "repo1/Packages_stable_main_amd64",
    size := some 7,
    compression := Compression.Xz (some (Checksum.sha256 hexA), some (Checksum.sha256 hexA)) }

/-! ## PkgActions (types/action.rs) -/

/-- Modelled from the spec: PkgVersion (types/version.rs is not in the
sources); only structural equality matters here, so versions are natural
numbers. -/
abbrev PkgVersion := Nat

namespace Action

/-- PkgInstallAction of types/action.rs. -/
structure PkgInstallAction where
  name : String
  url : String
  size : Nat
  checksum : Checksum
  version : PkgVersion
  deriving DecidableEq, Repr

/-- PkgActions of types/action.rs: the five ordered action lists. -/
structure PkgActions where
  install : List (PkgInstallAction × Option PkgVersion)
  unpack : List (PkgInstallAction × Option PkgVersion)
  remove : List String
  purge : List String
  configure : List String
  deriving DecidableEq, Repr

/-- PkgActions::is_empty, exactly as written in the source: the unpack
list is not consulted. -/
def PkgActions.is_empty (a : PkgActions) : Bool :=
  a.install.isEmpty && a.remove.isEmpty && a.purge.isEmpty && a.configure.isEmpty

end Action

/-- A concrete install payload for the unpack-only action set. -/
def sampleInstall : Action.PkgInstallAction :=
  { name := "x", url := "https://ex/x.deb", size := 1,
    checksum := Checksum.sha256 hexA, version := 1 }

/-- An action set whose only pending work is one unpack. -/
def unpackOnlyActions : Action.PkgActions :=
  { install := [], unpack := [(sampleInstall, none)], remove := [],
    purge := [], configure := [] }

/-! ## The essential-package guard of actions/execute.rs

ask_confirm lives in the cli module (not in the sources); its Boolean
answers are inputs.  remove_essential() on the action set is likewise an
input flag.  The outcome distinguishes reaching the backend invocation
(dpkg::execute_pkg_actions), returning with the user-cancelled flag, and
bailing with an error before any backend invocation. -/

/-- Outcome of the confirmation tail of execute. -/
inductive ExecOutcome where
  | proceeded
  | cancelled
  | errored (msg : String)
  deriving DecidableEq, Repr

/-- The guard sequence of execute (execute.rs lines 86-108), statement by
statement: when essential packages are to be removed and the override is
set, a positive answer to the danger prompt bails with User cancelled
operation, a negative answer falls through to the Proceed prompt; without
the override it bails outright; the Proceed prompt then decides between
invoking the backend and returning cancelled. -/
def essentialGuard (removeEssential allowRemoveEssential confirmEssential
    confirmProceed : Bool) : ExecOutcome :=
  if removeEssential then
    if allowRemoveEssential then
      if confirmEssential then ExecOutcome.errored "User cancelled operation."
      else if confirmProceed then ExecOutcome.proceeded else ExecOutcome.cancelled
    else ExecOutcome.errored "Some ESSENTIAL packages will be removed. Aborting..."
  else if confirmProceed then ExecOutcome.proceeded else ExecOutcome.cancelled

/-! ## execute_pkg_actions (executor/dpkg.rs)

The value computed is the sequence of backend invocations, each the full
dpkg argument vector.  Fetching the debs and the exit status of each
subprocess are external; deb_paths is the installed-package urls sent
through the download-result map, abstracted as pathOf. -/

namespace Dpkg

/-- An install entry as destructured in dpkg.rs: x.1 the url, x.2 the
size, x.3 the checksum. -/
structure InstallEntry where
  name : String
  url : String
  size : Nat
  checksum : Checksum
  deriving DecidableEq, Repr

/-- The action lists consumed by execute_pkg_actions. -/
structure PkgActions where
  install : List InstallEntry
  remove : List String
  purge : List String
  configure : List String
  deriving DecidableEq, Repr

/-- dpkg_run: the invocation made for one batch: dpkg --root root
--force-all followed by the batch arguments; a batch of at most the flag
argument is skipped without running anything. -/
def dpkg_run (args : List String) (root : String) : List (List String) :=
  if args.length ≤ 1 then []
  else [["--root", root, "--force-all"] ++ args]

/-- execute_pkg_actions: purge, then remove, then either the unpack
batch (unpack-only mode) or the configure and install batches, each
guarded by its emptiness check. -/
def execute_pkg_actions (actions : PkgActions) (root : String)
    (pathOf : String → String) (unpack_only : Bool) : List (List String) :=
  let deb_paths := actions.install.map (fun x => pathOf x.url)
  let purgeRun := if actions.purge.isEmpty then [] else dpkg_run ("--purge" :: actions.purge) root
  let removeRun := if actions.remove.isEmpty then [] else dpkg_run ("--remove" :: actions.remove) root
  let tailRun :=
    if unpack_only then
      if deb_paths.isEmpty then [] else dpkg_run ("--unpack" :: deb_paths) root
    else
      (if actions.configure.isEmpty then [] else dpkg_run ("--configure" :: actions.configure) root) ++
      (if deb_paths.isEmpty then [] else dpkg_run ("--install" :: deb_paths) root)
  purgeRun ++ removeRun ++ tailRun

/-- The batch list in the order the claim states: purge, remove, then
unpack when unpack-only, otherwise configure then install. -/
def claimBatches (actions : PkgActions) (pathOf : String → String)
    (unpack_only : Bool) : List (String × List String) :=
  [("--purge", actions.purge), ("--remove", actions.remove)] ++
    (if unpack_only then
      [("--unpack", actions.install.map (fun x => pathOf x.url))]
     else
      [("--configure", actions.configure),
       ("--install", actions.install.map (fun x => pathOf x.url))])

/-- The invocations the claim describes: one per non-empty batch, in
batch order, each passing --root root --force-all before the batch flag
and its arguments. -/
def claimInvocations (actions : PkgActions) (root : String)
    (pathOf : String → String) (unpack_only : Bool) : List (List String) :=
  ((claimBatches actions pathOf unpack_only).filter (fun b => !b.2.isEmpty)).map
    (fun b => ["--root", root, "--force-all", b.1] ++ b.2)

end Dpkg

/-! ## Structural lemmas about the encoder -/

/-- Every element of a list sent through mapM in the Option monad has a
defined image that lands in the result list. -/
theorem mapM_option_mem {α β : Type} (f : α → Option β) :
    ∀ (l : List α) (res : List β), l.mapM f = some res →
      ∀ a ∈ l, ∃ b, f a = some b ∧ b ∈ res := by
  intro l
  induction l with
  | nil =>
      intro res _ a ha
      simp at ha
  | cons x xs ih =>
      intro res hres a ha
      rw [List.mapM_cons] at hres
      cases hfx : f x with
      | none => rw [hfx] at hres; simp at hres
      | some b =>
          rw [hfx] at hres
          cases hxs : xs.mapM f with
          | none => rw [hxs] at hres; simp at hres
          | some bs =>
              rw [hxs] at hres
              have hres' := Option.some.inj hres
              subst hres'
              rcases List.mem_cons.mp ha with ha | ha
              · exact ⟨b, by rw [ha]; exact hfx, List.mem_cons_self _ _⟩
              · obtain ⟨b', hb', hmem⟩ := ih bs hxs a ha
                exact ⟨b', hb', List.mem_cons_of_mem _ hmem⟩

/-- Every package of the enumerate loop contributes its rule, and each
clause of that rule appears in the collected formula. -/
theorem toSolverAux_clauses (pool : PackagePool) :
    ∀ (l : List (String × PackageMeta)) (pos : Nat) (f : List (List Lit)),
      toSolverAux pool l pos = some f →
      ∀ (i : Nat) (p : String × PackageMeta), l.get? i = some p →
        ∃ rule, pool.pkg_to_rule p.2 (pos + i + 1) = some rule ∧
          ∀ c ∈ rule, c ∈ f := by
  intro l
  induction l with
  | nil =>
      intro pos f _ i p hp
      simp at hp
  | cons x xs ih =>
      intro pos f h i p hp
      unfold toSolverAux at h
      cases hr : pool.pkg_to_rule x.2 (pos + 1) with
      | none => rw [hr] at h; simp at h
      | some rule₀ =>
          rw [hr] at h
          cases hrest : toSolverAux pool xs (pos + 1) with
          | none => rw [hrest] at h; simp at h
          | some frest =>
              rw [hrest] at h
              have h' := Option.some.inj h
              subst h'
              cases i with
              | zero =>
                  simp only [List.get?] at hp
                  cases hp
                  refine ⟨rule₀, by simpa using hr, ?_⟩
                  intro c hc
                  exact List.mem_append_left _ hc
              | succ j =>
                  simp only [List.get?] at hp
                  obtain ⟨rule, hrule, hsub⟩ := ih (pos + 1) frest hrest j p hp
                  have harith : pos + 1 + j + 1 = pos + (j + 1) + 1 := by omega
                  rw [harith] at hrule
                  refine ⟨rule, hrule, ?_⟩
                  intro c hc
                  exact List.mem_append_right _ (hsub c hc)

/-- A satisfied formula satisfies each of its clauses. -/
theorem formulaSat_mem {asn : Nat → Bool} {f : List (List Lit)} {c : List Lit}
    (hf : formulaSat asn f = true) (hc : c ∈ f) : clauseSat asn c = true := by
  simp only [formulaSat, List.all_eq_true] at hf
  exact hf c hc

/-- A satisfied clause whose head literal is the negation of a variable
the assignment sets must satisfy one of its remaining literals. -/
theorem clauseSat_tail {asn : Nat → Bool} {p : Nat} {lits : List Lit}
    (h : clauseSat asn ((p, false) :: lits) = true) (hp : asn p = true) :
    ∃ l ∈ lits, litSat asn l = true := by
  simp only [clauseSat, List.any_cons, Bool.or_eq_true] at h
  rcases h with h | h
  · simp [litSat, hp] at h
  · simpa [clauseSat, List.any_eq_true] using h

/-- A defined dependency clause is the negated package literal followed
by the candidate literals. -/
theorem depClause_inv {pool : PackagePool} {pkgid : Nat}
    {dep : String × VersionRequirement} {c : List Lit}
    (h : depClause pool pkgid dep = some c) :
    ∃ lits, c = (pkgid, false) :: lits := by
  unfold depClause at h
  cases hav : lookupAssoc pool.name_to_ids dep.1 with
  | none => rw [hav] at h; simp at h
  | some av =>
      rw [hav] at h
      replace h : depCandidates pool dep.2 av >>=
          (fun lits => pure ((pkgid, false) :: lits)) = some c := h
      cases hl : depCandidates pool dep.2 av with
      | none => rw [hl] at h; simp at h
      | some lits =>
          rw [hl] at h
          exact ⟨lits, (Option.some.inj h).symm⟩

/-- A defined breaks clause is the negated package literal followed by
the negated matching literals. -/
theorem breakClause_inv {pool : PackagePool} {pkgid : Nat}
    {bk : String × VersionRequirement} {c : List Lit}
    (h : breakClause pool pkgid bk = some c) :
    ∃ lits, c = (pkgid, false) :: lits := by
  unfold breakClause at h
  cases hav : lookupAssoc pool.name_to_ids bk.1 with
  | none => rw [hav] at h; simp at h
  | some av =>
      rw [hav] at h
      replace h : breakLits pool bk.2 av >>=
          (fun lits => pure ((pkgid, false) :: lits)) = some c := h
      cases hl : breakLits pool bk.2 av with
      | none => rw [hl] at h; simp at h
      | some lits =>
          rw [hl] at h
          exact ⟨lits, (Option.some.inj h).symm⟩

/-! ## Claim C1 -/

/-- C1 counterexample.  The claim asserts that no two ids bearing the same
name are both true in a model because the encoder emits pairwise
uniqueness clauses.  The pool holding a=1 (id 1) and a=2 (id 2) encodes
to the empty formula: no uniqueness clause exists, the all-true
assignment satisfies every emitted clause, and both ids of name a are
true in it. -/
theorem C1_uniqueness_fails :
    poolTwoVersions.to_solver = some [] ∧
    formulaSat allTrue [] = true ∧
    poolTwoVersions.id_to_pkg 1 = some ("a", 1) ∧
    poolTwoVersions.id_to_pkg 2 = some ("a", 2) ∧
    allTrue 1 = true ∧ allTrue 2 = true :=
  ⟨rfl, rfl, rfl, rfl, rfl, rfl⟩

/-- C1 amended.  Every assignment satisfying the formula built by
to_solver satisfies all dependency and breaks clauses derived from the
pool: whenever a selected package has a dependency or breaks entry, its
emitted clause forces one of the non-head literals of that clause to be
satisfied.  (The uniqueness guarantee of the original claim is dropped:
the encoder emits no uniqueness clauses.) -/
theorem C1_model_satisfies_relationship_clauses
    (pool : PackagePool) (f : List (List Lit)) (asn : Nat → Bool)
    (pos : Nat) (pkg : String × PackageMeta)
    (hf : pool.to_solver = some f)
    (hsat : formulaSat asn f = true)
    (hpkg : pool.pkgs.get? pos = some pkg)
    (hsel : asn (pos + 1) = true) :
    (∀ dep ∈ pkg.2.depends, ∃ lits,
        depClause pool (pos + 1) dep = some ((pos + 1, false) :: lits) ∧
        ∃ l ∈ lits, litSat asn l = true) ∧
    (∀ bk ∈ pkg.2.breaks, ∃ lits,
        breakClause pool (pos + 1) bk = some ((pos + 1, false) :: lits) ∧
        ∃ l ∈ lits, litSat asn l = true) := by
  obtain ⟨rule, hrule, hsub⟩ := toSolverAux_clauses pool pool.pkgs 0 f hf pos pkg hpkg
  rw [Nat.zero_add] at hrule
  unfold PackagePool.pkg_to_rule at hrule
  cases hd : pkg.2.depends.mapM (depClause pool (pos + 1)) with
  | none => rw [hd] at hrule; simp at hrule
  | some ds =>
      rw [hd] at hrule
      cases hb : pkg.2.breaks.mapM (breakClause pool (pos + 1)) with
      | none =>
          replace hrule : (pkg.2.breaks.mapM (breakClause pool (pos + 1))).bind
              (fun bks => pure (ds ++ bks)) = some rule := hrule
          rw [hb] at hrule
          simp at hrule
      | some bs =>
          replace hrule : (pkg.2.breaks.mapM (breakClause pool (pos + 1))).bind
              (fun bks => pure (ds ++ bks)) = some rule := hrule
          rw [hb] at hrule
          have hrule' := Option.some.inj hrule
          constructor
          · intro dep hdep
            obtain ⟨c, hc, hmem⟩ := mapM_option_mem _ _ ds hd dep hdep
            obtain ⟨lits, hlits⟩ := depClause_inv hc
            have hcf : c ∈ f := by
              apply hsub
              rw [← hrule']
              exact List.mem_append_left _ hmem
            have hcs := formulaSat_mem hsat hcf
            rw [hlits] at hcs hc
            obtain ⟨l, hl, hls⟩ := clauseSat_tail hcs hsel
            exact ⟨lits, hc, l, hl, hls⟩
          · intro bk hbk
            obtain ⟨c, hc, hmem⟩ := mapM_option_mem _ _ bs hb bk hbk
            obtain ⟨lits, hlits⟩ := breakClause_inv hc
            have hcf : c ∈ f := by
              apply hsub
              rw [← hrule']
              exact List.mem_append_right _ hmem
            have hcs := formulaSat_mem hsat hcf
            rw [hlits] at hcs hc
            obtain ⟨l, hl, hls⟩ := clauseSat_tail hcs hsel
            exact ⟨lits, hc, l, hl, hls⟩

/-- C1 witness.  The theorem applied to the concrete unit-test pool (a at
id 1, b depending on a at id 2) under the all-true model: the dependency
clause of b on a has a satisfied candidate literal. -/
theorem C1_model_satisfies_relationship_clauses_witness :
    ∃ lits, depClause poolDep 2 ("a", VersionRequirement.any) = some ((2, false) :: lits) ∧
      ∃ l ∈ lits, litSat allTrue l = true :=
  (C1_model_satisfies_relationship_clauses poolDep [[(2, false), (1, true)]] allTrue 1
      ("b", metaBdep) rfl rfl rfl rfl).1
    ("a", VersionRequirement.any) (by simp [metaBdep])

/-! ## Claim C2 -/

/-- C2.  The claim (and the spec) ask for a separate binary clause for
every matching id of a breaks entry, forcing all matching ids out when
the breaking package is selected.  The source instead accumulates one
combined clause per breaks entry.  Concretely, for b=1 (id 1), b=2
(id 2) and a breaking every b (id 3), the whole encoding is the single
clause with literals not-3, not-1, not-2, and the assignment selecting a
together with the matching b at id 1 satisfies it — the claimed clause
pair (not-3 or not-1) and (not-3 or not-2) would reject it. -/
theorem C2_breaks_single_combined_clause :
    poolBreaks.to_solver = some [[(3, false), (1, false), (2, false)]] ∧
    formulaSat asnBreaks [[(3, false), (1, false), (2, false)]] = true ∧
    asnBreaks 3 = true ∧ asnBreaks 1 = true ∧
    poolBreaks.id_to_pkg 3 = some ("a", 1) ∧
    poolBreaks.id_to_pkg 1 = some ("b", 1) ∧
    VersionRequirement.any.within 1 = true :=
  ⟨rfl, rfl, rfl, rfl, rfl, rfl, rfl⟩

/-! ## Claim C3 -/

/-- C3.  The claim asserts encoding cannot panic and that a dependency
on a name with no pool entry yields the unit clause not-p.  In the
source, the HashMap index self.name_to_ids[&dep.0] panics on a missing
name: for the one-package pool whose entry depends on the absent name
zzz, to_solver is the modelled panic (none), not a formula with the unit
clause. -/
theorem C3_missing_dep_name_panics :
    poolMissingDep.to_solver = none ∧
    lookupAssoc poolMissingDep.name_to_ids "zzz" = none ∧
    poolMissingDep.pkgs.length = 1 :=
  ⟨rfl, rfl, rfl⟩

/-! ## Claim C5 -/

/-- C5.  After add(a=1) then add(a=2), the id list of name a is [1, 2]:
the head id 1 denotes the version-1 entry while id 2 denotes version 2,
so the head does not carry the maximum version.  The promotion test of
add compares against self.pkgs[ids[0]] with a 1-based id used as a
0-based index — here the entry just pushed itself — so the higher
version is appended instead of promoted. -/
theorem C5_head_not_max_after_adds :
    headIsMax poolTwoVersions "a" = false ∧
    lookupAssoc poolTwoVersions.name_to_ids "a" = some [1, 2] ∧
    poolTwoVersions.id_to_pkg 1 = some ("a", 1) ∧
    poolTwoVersions.id_to_pkg 2 = some ("a", 2) :=
  ⟨rfl, rfl, rfl, rfl⟩

/-! ## Claim C4 -/

/-- A verification failure anywhere in the repository list makes step 2
of update return an error. -/
theorem updateStep2_error_of_failure (verifyOk : String → Bool)
    (payloads : String → List (List (String × String))) :
    ∀ (repos : List (String × RepoConfig)) (name : String) (repo : RepoConfig),
      (name, repo) ∈ repos → verifyOk name = false →
      ∃ e, updateStep2 verifyOk payloads repos = Except.error e := by
  intro repos
  induction repos with
  | nil =>
      intro name repo hmem _
      simp at hmem
  | cons hd rest ih =>
      intro name repo hmem hfail
      obtain ⟨n, r⟩ := hd
      rcases List.mem_cons.mp hmem with heq | hmem'
      · have hn : n = name := (congrArg Prod.fst heq).symm
        unfold updateStep2
        rw [hn, hfail]
        exact ⟨_, rfl⟩
      · unfold updateStep2
        cases hv : verifyOk n with
        | false => exact ⟨_, rfl⟩
        | true =>
            cases hp : parse_inrelease (payloads n) with
            | error e => exact ⟨_, rfl⟩
            | ok db =>
                obtain ⟨e, he⟩ := ih name repo hmem' hfail
                rw [he]
                exact ⟨e, rfl⟩

/-- C4 counterexample.  Two repositories; repo2 fails verification.  The
claim asserts refresh records repo2 as failed and still downloads the
index files of the other repositories.  In the source the verification failure
is propagated by the question-mark operator: update aborts with the
repo2 error and builds no download job at all, while the same
configuration with repo1 alone yields its Packages.xz job — so the
index download of repo1 was suppressed by the failure of repo2. -/
theorem C4_refresh_not_isolated :
    LocalDb.update "amd64" [("repo1", repoCfg1), ("repo2", repoCfg2)]
        verifyScenario payloadScenario =
      Except.error "Failed to verify metadata for repository repo2." ∧
    LocalDb.update "amd64" [("repo1", repoCfg1)] verifyScenario payloadScenario =
      Except.ok [repo1PackagesJob] :=
  ⟨rfl, rfl⟩

/-- C4 amended.  InRelease verification failures are not isolated: if
any configured repository fails verification, update returns an error
and no index file of any repository is downloaded (step 3 never produces a
job set). -/
theorem C4_any_verify_failure_aborts
    (selfArch : String) (repos : List (String × RepoConfig))
    (verifyOk : String → Bool)
    (payloads : String → List (List (String × String)))
    (name : String) (repo : RepoConfig)
    (hmem : (name, repo) ∈ repos) (hfail : verifyOk name = false) :
    ∃ e, LocalDb.update selfArch repos verifyOk payloads = Except.error e := by
  obtain ⟨e, he⟩ := updateStep2_error_of_failure verifyOk payloads repos name repo hmem hfail
  exact ⟨e, by unfold LocalDb.update; rw [he]⟩

/-- C4 witness.  The amended theorem applied to the concrete two-repo
scenario with repo2 failing verification. -/
theorem C4_any_verify_failure_aborts_witness :
    ∃ e, LocalDb.update "amd64" [("repo1", repoCfg1), ("repo2", repoCfg2)]
        verifyScenario payloadScenario = Except.error e :=
  C4_any_verify_failure_aborts "amd64" [("repo1", repoCfg1), ("repo2", repoCfg2)]
    verifyScenario payloadScenario "repo2" repoCfg2 (by simp) rfl

/-! ## Claim C6 -/

/-- C6.  The claim says is_empty is true exactly when all five action
lists are empty.  The source checks install, remove, purge and configure
but not unpack: the action set whose only pending work is one unpack
reports is_empty = true. -/
theorem C6_is_empty_ignores_unpack :
    Action.PkgActions.is_empty unpackOnlyActions = true ∧
    unpackOnlyActions.unpack.length = 1 :=
  ⟨rfl, rfl⟩

/-! ## Claim C7 -/

/-- C7.  With essential removals pending: without the override the
driver refuses before any backend invocation (third conjunct), as the
claim states; but with the override set, a positive answer to the
confirmation bails with User cancelled operation (first conjunct) while
a negative answer falls through to the Proceed prompt and reaches the
backend (second conjunct) — the opposite of the claimed behaviour that
confirmation lets execution proceed. -/
theorem C7_essential_confirm_inverted :
    essentialGuard true true true true =
      ExecOutcome.errored "User cancelled operation." ∧
    essentialGuard true true false true = ExecOutcome.proceeded ∧
    essentialGuard true false true true =
      ExecOutcome.errored "Some ESSENTIAL packages will be removed. Aborting..." :=
  ⟨rfl, rfl, rfl⟩

/-! ## Claim C8 -/

/-- The field loop of a paragraph agrees with finding the first field
named SHA256 or SHA512. -/
theorem parseParaFields_eq (p : List (String × String)) :
    parseParaFields p =
      (p.find? (fun f => f.1 == "SHA256" || f.1 == "SHA512")).map
        (fun f => parseChecksumLines
          (if f.1 = "SHA256" then from_sha256_str else from_sha512_str)
          (rustLines f.2) []) := by
  induction p with
  | nil => rfl
  | cons f fs ih =>
      obtain ⟨n, v⟩ := f
      by_cases h256 : n = "SHA256"
      · subst h256
        rw [List.find?_cons_of_pos _ (by simp)]
        simp [parseParaFields]
      · by_cases h512 : n = "SHA512"
        · subst h512
          rw [List.find?_cons_of_pos _ (by simp)]
          simp [parseParaFields]
        · rw [List.find?_cons_of_neg _ (by simp [h256, h512])]
          simpa [parseParaFields, h256, h512] using ih

/-- C8 counterexample.  A verified payload whose (single) paragraph
lists SHA256 before SHA512 for the same path: the returned mapping
carries the SHA-256 checksum, not the claimed preferred SHA-512 one. -/
theorem C8_sha256_used_when_first :
    parse_inrelease doubleHashDoc =
      Except.ok [("p", (10, Checksum.sha256 hexA))] ∧
    Checksum.sha256 hexA ≠ Checksum.sha512 hexB :=
  ⟨rfl, fun h => Checksum.noConfusion h⟩

/-- C8 amended.  parse_inrelease reads the first field named SHA256 or
SHA512 in document order — with no preference for SHA-512 when both
exist — and returns the path to (size, checksum) mapping built from that
field alone; without any such field it fails with the
no-metadata-hash error. -/
theorem C8_first_hash_field_wins (paragraphs : List (List (String × String))) :
    parse_inrelease paragraphs =
      match firstHashField paragraphs with
      | some (n, v) =>
          parseChecksumLines (if n = "SHA256" then from_sha256_str else from_sha512_str)
            (rustLines v) []
      | none => Except.error "No metadata hash found in InRelease. Supported Hash: SHA256" := by
  induction paragraphs with
  | nil => rfl
  | cons p ps ih =>
      unfold parse_inrelease
      rw [parseParaFields_eq]
      unfold firstHashField at ih ⊢
      rw [List.flatten_cons, List.find?_append]
      cases hf : p.find? (fun f => f.1 == "SHA256" || f.1 == "SHA512") with
      | none => simpa [hf] using ih
      | some f => simp [hf]

/-! ## Claim C9 -/

/-- C9.  execute_pkg_actions invokes the backend once per non-empty
batch, strictly in the order purge, remove, then unpack when
unpack-only and otherwise configure then install; empty batches are
skipped, and every invocation starts with --root root --force-all. -/
theorem C9_invocation_order (actions : Dpkg.PkgActions) (root : String)
    (pathOf : String → String) (unpack_only : Bool) :
    Dpkg.execute_pkg_actions actions root pathOf unpack_only =
      Dpkg.claimInvocations actions root pathOf unpack_only := by
  obtain ⟨install, remove, purge, configure⟩ := actions
  cases unpack_only <;> cases install <;> cases remove <;> cases purge <;> cases configure <;>
    simp [Dpkg.execute_pkg_actions, Dpkg.claimInvocations, Dpkg.claimBatches, Dpkg.dpkg_run]

/-! ## Claim C10 -/

/-- C10.  A repository configuration accepted by check_sanity has a
defined get_url: the only panicking case of get_url, a multi-mirror
configuration with an empty mirror list, is exactly what check_sanity
rejects. -/
theorem C10_sane_repo_get_url_defined (repo : RepoConfig) (name : String)
    (h : repo.check_sanity name = Except.ok ()) :
    ∃ u, repo.get_url = some u := by
  cases hu : repo.url with
  | Single m => exact ⟨m, by simp [RepoConfig.get_url, hu]⟩
  | Multiple ms =>
      cases ms with
      | nil =>
          exfalso
          unfold RepoConfig.check_sanity at h
          rw [hu] at h
          simp at h
      | cons m rest => exact ⟨m, by simp [RepoConfig.get_url, hu]⟩

/-- C10 witness.  The theorem applied to the concrete two-mirror
repository, whose sanity check passes. -/
theorem C10_sane_repo_get_url_defined_witness :
    twoMirrorRepo.check_sanity "r" = Except.ok () ∧
    ∃ u, twoMirrorRepo.get_url = some u :=
  ⟨rfl, C10_sane_repo_get_url_defined twoMirrorRepo "r" rfl⟩

end Omakase



